import Mathlib

/-!
Shallow embedding of the `probnmn-clevr` dataset adapters
(`tbd/data/datasets.py`) and the `QuestionReconstructor` model wrapper
(`tbd/models/question_reconstructor.py`), together with proofs of the
specified properties.

The underlying readers (`ClevrTokensReader`, `ClevrFeaturesReader`) and the
`Seq2SeqBase` model live in modules of the repository that are not part of
the provided sources; they are modelled from the specification's boundary
contracts.  Python exceptions are modelled with `Except DataError`; the
process-wide numpy random state is modelled by explicit state passing
through a `RandomSource`.
-/

namespace Tbd

/-- An example record produced by the token reader: `question` and `program`
are sequences of integer token ids, `image_index` is a foreign key into the
feature reader, `answer` is an integer token id. -/
structure TokenRecord where
  question : List Int
  program : List Int
  image_index : Nat
  answer : Int
deriving DecidableEq, Repr

/-- A feature record produced by the feature reader: the per-image numeric
feature tensor (flattened to a list of numbers). -/
structure FeatureRecord where
  features : List Int
deriving DecidableEq, Repr

/-- Errors raised by reader random access: an out-of-bounds integer index
(Python `IndexError`) or a missing-key lookup. -/
inductive DataError where
  | indexError (index : Nat)
  | lookupError (key : Nat)
deriving DecidableEq, Repr

/-- Modelled from the spec: `ClevrTokensReader` (module `tbd.data.readers`,
not among the provided sources) is an on-disk random-access reader exposing
`len(reader)` (the example count), `reader[i]` (an example record, raising
`IndexError` out of bounds), a `split` attribute, and slicing to a prefix. -/
structure ClevrTokensReader where
  records : List TokenRecord
  split : String
deriving DecidableEq, Repr

/-- `len(reader)`: the example count. -/
def ClevrTokensReader.size (r : ClevrTokensReader) : Nat :=
  r.records.length

/-- `reader[i]` for an integer index: the record at `i`, or an
`IndexError` out of bounds. -/
def ClevrTokensReader.read (r : ClevrTokensReader) (i : Nat) :
    Except DataError TokenRecord :=
  match r.records[i]? with
  | some rec => Except.ok rec
  | none => Except.error (DataError.indexError i)

/-- Modelled from the spec: `reader[:n]`, slicing the token reader to a
prefix of at most `n` examples (consumed by the overfit truncation); the
result is again a reader, with the same split tag. -/
def ClevrTokensReader.takeFirst (r : ClevrTokensReader) (n : Nat) :
    ClevrTokensReader :=
  { records := r.records.take n, split := r.split }

/-- Modelled from the spec: `ClevrFeaturesReader` (module
`tbd.data.readers`, not among the provided sources) is constructed with a
path and an in-memory flag and exposes `reader[image_index]`, a feature
record, failing with a lookup error on a missing index.  The in-memory flag
is a performance trade-off delegated to the reader and has no semantic
effect. -/
structure ClevrFeaturesReader where
  records : List FeatureRecord
  in_memory : Bool
deriving DecidableEq, Repr

/-- `reader[image_index]`: the feature record at that index, or a lookup
error when no corresponding record exists. -/
def ClevrFeaturesReader.read (r : ClevrFeaturesReader) (k : Nat) :
    Except DataError FeatureRecord :=
  match r.records[k]? with
  | some rec => Except.ok rec
  | none => Except.error (DataError.lookupError k)

/-- The process-wide numpy random state (`np.random`), modelled by explicit
state passing: `draw s n k` is the behaviour of
`np.random.choice(np.arange(n), replace=False, size=k)` from state `s`,
returning the drawn indices and the successor state. -/
structure RandomSource where
  state : Nat
  draw : Nat → Nat → Nat → List Nat × Nat

/-- numpy's contract for `np.random.choice(np.arange(n), replace=False,
size=k)` with `k ≤ n`: it returns `k` distinct indices below `n`. -/
def ChoiceSpec (rng : RandomSource) : Prop :=
  ∀ s n k, k ≤ n →
    (rng.draw s n k).1.length = k ∧ (rng.draw s n k).1.Nodup ∧
      ∀ x ∈ (rng.draw s n k).1, x < n

/-- `np.random.choice(np.arange(n), replace=False, size=k)`: draws from the
ambient random source and advances its state. -/
def npRandomChoice (rng : RandomSource) (n k : Nat) :
    List Nat × RandomSource :=
  ((rng.draw rng.state n k).1, { rng with state := (rng.draw rng.state n k).2 })

/-! ### ProgramPriorDataset -/

/-- The mapping returned by `ProgramPriorDataset.__getitem__`: only the
`program` key. -/
structure ProgramPriorItem where
  program : List Int
deriving DecidableEq, Repr

/-- `ProgramPriorDataset`: wraps a token reader (field `_reader`). -/
structure ProgramPriorDataset where
  reader : ClevrTokensReader
deriving DecidableEq, Repr

/-- `ProgramPriorDataset.__init__`: store the reader. -/
def mkProgramPriorDataset (tokensReader : ClevrTokensReader) :
    ProgramPriorDataset :=
  { reader := tokensReader }

/-- `ProgramPriorDataset.__len__`. -/
def ProgramPriorDataset.size (d : ProgramPriorDataset) : Nat :=
  d.reader.size

/-- `ProgramPriorDataset.__getitem__`: only return the program, nothing
else. -/
def ProgramPriorDataset.get (d : ProgramPriorDataset) (i : Nat) :
    Except DataError ProgramPriorItem :=
  match d.reader.read i with
  | Except.ok item => Except.ok { program := item.program }
  | Except.error e => Except.error e

/-- `ProgramPriorDataset.split`: pass-through property. -/
def ProgramPriorDataset.split (d : ProgramPriorDataset) : String :=
  d.reader.split

/-- `ProgramPriorDataset.__getitem__` as a state-passing method call: the
body only reads `self`, so the post-call state is returned alongside the
result. -/
def ProgramPriorDataset.get_step (d : ProgramPriorDataset) (i : Nat) :
    Except DataError ProgramPriorItem × ProgramPriorDataset :=
  match d.reader.read i with
  | Except.ok item => (Except.ok { program := item.program }, d)
  | Except.error e => (Except.error e, d)

/-! ### QuestionCodingDataset -/

/-- The mapping returned by `QuestionCodingDataset.__getitem__`: exactly the
keys `program`, `question` and `supervision`. -/
structure QuestionCodingItem where
  program : List Int
  question : List Int
  supervision : Nat
deriving DecidableEq, Repr

/-- `QuestionCodingDataset`: token reader (field `_tokens`) plus the
supervision mask fixed at construction (field `_supervision_list`). -/
structure QuestionCodingDataset where
  tokens : ClevrTokensReader
  supervision_list : List Nat
deriving DecidableEq, Repr

/-- `QuestionCodingDataset.__init__`: start from an all-zero mask of length
`len(tokens)`; if the split is `"train"` and `num_supervision <
len(tokens)`, draw `num_supervision` indices without replacement and set
those positions to 1; otherwise add 1 everywhere.  Returns the constructed
dataset together with the numpy random state after construction. -/
def mkQuestionCodingDataset (tokensReader : ClevrTokensReader)
    (num_supervision : Nat) (rng : RandomSource) :
    QuestionCodingDataset × RandomSource :=
  if tokensReader.split = "train" ∧ num_supervision < tokensReader.size then
    ({ tokens := tokensReader,
       supervision_list := (List.range tokensReader.size).map fun i =>
         if i ∈ (npRandomChoice rng tokensReader.size num_supervision).1
         then 1 else 0 },
     (npRandomChoice rng tokensReader.size num_supervision).2)
  else
    ({ tokens := tokensReader,
       supervision_list := List.replicate tokensReader.size 1 }, rng)

/-- `QuestionCodingDataset.__len__`. -/
def QuestionCodingDataset.size (d : QuestionCodingDataset) : Nat :=
  d.tokens.size

/-- Reading `self._supervision_list[index]` (raises `IndexError` out of
bounds, like the tensor it models). -/
def QuestionCodingDataset.read_supervision (d : QuestionCodingDataset)
    (i : Nat) : Except DataError Nat :=
  match d.supervision_list[i]? with
  | some s => Except.ok s
  | none => Except.error (DataError.indexError i)

/-- `QuestionCodingDataset.__getitem__`: read the token record, then the
supervision entry, and return the three-key mapping; the first failing read
propagates. -/
def QuestionCodingDataset.get (d : QuestionCodingDataset) (i : Nat) :
    Except DataError QuestionCodingItem :=
  match d.tokens.read i with
  | Except.error e => Except.error e
  | Except.ok item =>
    match d.read_supervision i with
    | Except.error e => Except.error e
    | Except.ok s =>
      Except.ok { program := item.program, question := item.question,
                  supervision := s }

/-- `QuestionCodingDataset.split`: pass-through property. -/
def QuestionCodingDataset.split (d : QuestionCodingDataset) : String :=
  d.tokens.split

/-- `QuestionCodingDataset.get_supervision_list`. -/
def QuestionCodingDataset.get_supervision_list (d : QuestionCodingDataset) :
    List Nat :=
  d.supervision_list

/-- `QuestionCodingDataset.__getitem__` as a state-passing method call: the
body only reads `self`, so the post-call state is returned alongside the
result. -/
def QuestionCodingDataset.get_step (d : QuestionCodingDataset) (i : Nat) :
    Except DataError QuestionCodingItem × QuestionCodingDataset :=
  match d.tokens.read i with
  | Except.error e => (Except.error e, d)
  | Except.ok item =>
    match d.read_supervision i with
    | Except.error e => (Except.error e, d)
    | Except.ok s =>
      (Except.ok { program := item.program, question := item.question,
                   supervision := s }, d)

/-- A post-construction method call on a `QuestionCodingDataset`. -/
inductive QCOp where
  | opGet (i : Nat)
  | opSize
  | opSplit
  | opGetSupervisionList
deriving DecidableEq, Repr

/-- The dataset state after one method call: `__getitem__` via its
state-passing form; `__len__`, `split` and `get_supervision_list` only read
`self`. -/
def QuestionCodingDataset.run_op (d : QuestionCodingDataset) :
    QCOp → QuestionCodingDataset
  | QCOp.opGet i => (d.get_step i).2
  | QCOp.opSize => d
  | QCOp.opSplit => d
  | QCOp.opGetSupervisionList => d

/-- The dataset state after a sequence of method calls. -/
def QuestionCodingDataset.run_ops (d : QuestionCodingDataset) :
    List QCOp → QuestionCodingDataset
  | [] => d
  | op :: ops => (d.run_op op).run_ops ops

/-! ### ModuleTrainingDataset -/

/-- The mapping returned by `ModuleTrainingDataset.__getitem__`: exactly the
keys `question`, `answer` and `image`. -/
structure ModuleTrainingItem where
  question : List Int
  answer : Int
  image : List Int
deriving DecidableEq, Repr

/-- `ModuleTrainingDataset`: token reader (field `_tokens`) plus feature
reader (field `_features`). -/
structure ModuleTrainingDataset where
  tokens : ClevrTokensReader
  features : ClevrFeaturesReader
deriving DecidableEq, Repr

/-- `ModuleTrainingDataset.__init__`: store both readers; when `overfit` is
true, replace the token reader by its first-5 prefix slice. -/
def mkModuleTrainingDataset (tokensReader : ClevrTokensReader)
    (featuresReader : ClevrFeaturesReader) (overfit : Bool) :
    ModuleTrainingDataset :=
  { tokens := if overfit then tokensReader.takeFirst 5 else tokensReader,
    features := featuresReader }

/-- `ModuleTrainingDataset.__len__`. -/
def ModuleTrainingDataset.size (d : ModuleTrainingDataset) : Nat :=
  d.tokens.size

/-- `ModuleTrainingDataset.__getitem__`: read the token record, resolve its
`image_index` in the feature reader, and return the three-key mapping; the
first failing read propagates. -/
def ModuleTrainingDataset.get (d : ModuleTrainingDataset) (i : Nat) :
    Except DataError ModuleTrainingItem :=
  match d.tokens.read i with
  | Except.error e => Except.error e
  | Except.ok item =>
    match d.features.read item.image_index with
    | Except.error e => Except.error e
    | Except.ok f =>
      Except.ok { question := item.question, answer := item.answer,
                  image := f.features }

/-- `ModuleTrainingDataset.split`: pass-through property. -/
def ModuleTrainingDataset.split (d : ModuleTrainingDataset) : String :=
  d.tokens.split

/-- `ModuleTrainingDataset.__getitem__` as a state-passing method call: the
body only reads `self`, so the post-call state is returned alongside the
result. -/
def ModuleTrainingDataset.get_step (d : ModuleTrainingDataset) (i : Nat) :
    Except DataError ModuleTrainingItem × ModuleTrainingDataset :=
  match d.tokens.read i with
  | Except.error e => (Except.error e, d)
  | Except.ok item =>
    match d.features.read item.image_index with
    | Except.error e => (Except.error e, d)
    | Except.ok f =>
      (Except.ok { question := item.question, answer := item.answer,
                   image := f.features }, d)

/-! ### QuestionReconstructor -/

/-- An opaque AllenNLP vocabulary object, carried through unchanged. -/
structure Vocabulary where
  vocabId : Nat
deriving DecidableEq, Repr

/-- Modelled from the spec: `Seq2SeqBase` (module `tbd.models.seq2seq_base`,
not among the provided sources) is a generic encoder-decoder sequence model
constructed with a vocabulary object, source/target namespace names, and
hyperparameters (embedding size, hidden size, dropout, max decode length),
which it stores as its configuration; the forward/loss/decoding behaviour is
out of scope.  Dropout is a Python float carried through unchanged,
modelled as a rational. -/
structure Seq2SeqBase where
  vocabulary : Vocabulary
  source_namespace : String
  target_namespace : String
  embedding_size : Nat
  hidden_size : Nat
  dropout : ℚ
  max_decoding_steps : Nat
deriving DecidableEq, Repr

/-- `Seq2SeqBase.__init__` (as far as configuration binding is concerned):
store everything given. -/
def mkSeq2SeqBase (vocabulary : Vocabulary) (source_namespace : String)
    (target_namespace : String) (embedding_size : Nat) (hidden_size : Nat)
    (dropout : ℚ) (max_decoding_steps : Nat) : Seq2SeqBase :=
  { vocabulary, source_namespace, target_namespace, embedding_size,
    hidden_size, dropout, max_decoding_steps }

/-- `QuestionReconstructor.__init__`: call the base constructor with source
namespace `"programs"`, target namespace `"questions"`, and the given
hyperparameters forwarded unchanged. -/
def mkQuestionReconstructor (vocabulary : Vocabulary)
    (embedding_size : Nat) (hidden_size : Nat) (dropout : ℚ)
    (max_decoding_steps : Nat) : Seq2SeqBase :=
  mkSeq2SeqBase vocabulary "programs" "questions" embedding_size hidden_size
    dropout max_decoding_steps

/-- `QuestionReconstructor(vocabulary)` with every hyperparameter left at
its declared default: `embedding_size=128`, `hidden_size=64`, `dropout=0.0`,
`max_decoding_steps=45`. -/
def mkQuestionReconstructorDefaults (vocabulary : Vocabulary) :
    Seq2SeqBase :=
  mkQuestionReconstructor vocabulary 128 64 0 45

/-! ### Helper lemmas -/

/-- Unfolding `QuestionCodingDataset.__init__` in the sampling branch. -/
lemma mkQuestionCodingDataset_pos (t : ClevrTokensReader) (k : Nat)
    (rng : RandomSource) (h : t.split = "train" ∧ k < t.size) :
    mkQuestionCodingDataset t k rng =
      ({ tokens := t,
         supervision_list := (List.range t.size).map fun i =>
           if i ∈ (npRandomChoice rng t.size k).1 then 1 else 0 },
       (npRandomChoice rng t.size k).2) := by
  simp only [mkQuestionCodingDataset, if_pos h]

/-- Unfolding `QuestionCodingDataset.__init__` in the full-supervision
branch. -/
lemma mkQuestionCodingDataset_neg (t : ClevrTokensReader) (k : Nat)
    (rng : RandomSource) (h : ¬(t.split = "train" ∧ k < t.size)) :
    mkQuestionCodingDataset t k rng =
      ({ tokens := t, supervision_list := List.replicate t.size 1 }, rng) := by
  simp only [mkQuestionCodingDataset, if_neg h]

/-- Counting the members of a duplicate-free list `chosen` of indices below
`n` inside `List.range n`. -/
lemma countP_add_countP_not {α : Type} (p : α → Bool) (l : List α) :
    l.countP p + l.countP (fun a => !(p a)) = l.length := by
  induction l with
  | nil => simp
  | cons a l ih =>
    by_cases h : p a = true <;> simp [List.countP_cons, h] <;> omega

lemma countP_mem_range (chosen : List Nat) (n : Nat) (hnd : chosen.Nodup)
    (hlt : ∀ x ∈ chosen, x < n) :
    (List.range n).countP (fun i => decide (i ∈ chosen)) = chosen.length := by
  have hperm : List.Perm ((List.range n).filter (fun i => decide (i ∈ chosen)))
      chosen := by
    apply List.perm_of_nodup_nodup_toFinset_eq
    · exact (List.nodup_range n).filter _
    · exact hnd
    · ext x
      simp only [List.mem_toFinset, List.mem_filter, List.mem_range,
        decide_eq_true_eq]
      exact ⟨fun h => h.2, fun h => ⟨hlt x h, h⟩⟩
  rw [List.countP_eq_length_filter]
  exact hperm.length_eq

/-- In the sampling branch, the number of mask entries equal to 1 is the
number of drawn indices. -/
lemma mask_count_one (chosen : List Nat) (n : Nat) (hnd : chosen.Nodup)
    (hlt : ∀ x ∈ chosen, x < n) :
    ((List.range n).map fun i => if i ∈ chosen then (1 : Nat) else 0).count 1 =
      chosen.length := by
  rw [List.count_eq_countP, List.countP_map]
  have heq : ((fun x => x == 1) ∘ fun i => if i ∈ chosen then (1 : Nat) else 0) =
      fun i => decide (i ∈ chosen) := by
    funext i
    by_cases h : i ∈ chosen <;> simp [h]
  rw [heq]
  exact countP_mem_range chosen n hnd hlt

/-- In the sampling branch, the number of mask entries equal to 0 is the
number of undrawn indices. -/
lemma mask_count_zero (chosen : List Nat) (n : Nat) (hnd : chosen.Nodup)
    (hlt : ∀ x ∈ chosen, x < n) :
    ((List.range n).map fun i => if i ∈ chosen then (1 : Nat) else 0).count 0 =
      n - chosen.length := by
  rw [List.count_eq_countP, List.countP_map]
  have heq : ((fun x => x == 0) ∘ fun i => if i ∈ chosen then (1 : Nat) else 0) =
      fun i => !(decide (i ∈ chosen)) := by
    funext i
    by_cases h : i ∈ chosen <;> simp [h]
  rw [heq]
  have hsum : (List.range n).countP (fun i => decide (i ∈ chosen)) +
      (List.range n).countP (fun i => !(decide (i ∈ chosen))) = n := by
    have h := countP_add_countP_not (fun i => decide (i ∈ chosen)) (List.range n)
    simpa using h
  rw [countP_mem_range chosen n hnd hlt] at hsum
  omega

/-- The mask entry at a valid position `i` is 1 or 0 according to whether
`i` was drawn. -/
lemma mask_getElem (chosen : List Nat) (n i : Nat) (hi : i < n) :
    ((List.range n).map fun j => if j ∈ chosen then (1 : Nat) else 0)[i]? =
      some (if i ∈ chosen then 1 else 0) := by
  rw [List.getElem?_map, List.getElem?_range hi]
  rfl

/-- The supervision mask always has one entry per example. -/
lemma supervision_list_length (t : ClevrTokensReader) (k : Nat)
    (rng : RandomSource) :
    (mkQuestionCodingDataset t k rng).1.supervision_list.length = t.size := by
  by_cases h : t.split = "train" ∧ k < t.size
  · rw [mkQuestionCodingDataset_pos t k rng h]
    simp
  · rw [mkQuestionCodingDataset_neg t k rng h]
    simp

/-- Every supervision mask entry is 0 or 1, in either branch. -/
lemma supervision_list_mem (t : ClevrTokensReader) (k : Nat)
    (rng : RandomSource) (v : Nat)
    (hv : v ∈ (mkQuestionCodingDataset t k rng).1.supervision_list) :
    v = 0 ∨ v = 1 := by
  by_cases h : t.split = "train" ∧ k < t.size
  · rw [mkQuestionCodingDataset_pos t k rng h] at hv
    simp only [List.mem_map] at hv
    obtain ⟨i, -, hi⟩ := hv
    by_cases hmem : i ∈ (npRandomChoice rng t.size k).1
    · right
      rw [← hi, if_pos hmem]
    · left
      rw [← hi, if_neg hmem]
  · rw [mkQuestionCodingDataset_neg t k rng h] at hv
    right
    exact (List.eq_of_mem_replicate hv)

/-- **C1.** For a `QuestionCodingDataset` over a reader with `n = size`
examples and requested count `k`: when the split is `"train"` and `k < n`
(strict less-than boundary), the supervision mask has exactly `k` entries
equal to 1 — at the `k` distinct positions drawn without replacement — and
`n - k` entries equal to 0; otherwise (non-train split, or `k ≥ n`,
including `k = n`) every entry of the mask is 1. -/
theorem supervision_mask_construction (t : ClevrTokensReader) (k : Nat)
    (rng : RandomSource) (hrng : ChoiceSpec rng) :
    ((t.split = "train" ∧ k < t.size) →
      (mkQuestionCodingDataset t k rng).1.supervision_list.count 1 = k ∧
      (mkQuestionCodingDataset t k rng).1.supervision_list.count 0 = t.size - k ∧
      (mkQuestionCodingDataset t k rng).1.supervision_list.length = t.size ∧
      (npRandomChoice rng t.size k).1.Nodup ∧
      (npRandomChoice rng t.size k).1.length = k ∧
      (∀ i, i < t.size →
        ((mkQuestionCodingDataset t k rng).1.supervision_list[i]? = some 1 ↔
          i ∈ (npRandomChoice rng t.size k).1))) ∧
    (¬(t.split = "train" ∧ k < t.size) →
      (mkQuestionCodingDataset t k rng).1.supervision_list =
        List.replicate t.size 1) := by
  constructor
  · intro h
    obtain ⟨hlen, hnd, hlt⟩ := hrng rng.state t.size k (le_of_lt h.2)
    have hlen' : (npRandomChoice rng t.size k).1.length = k := hlen
    have hnd' : (npRandomChoice rng t.size k).1.Nodup := hnd
    have hlt' : ∀ x ∈ (npRandomChoice rng t.size k).1, x < t.size := hlt
    rw [mkQuestionCodingDataset_pos t k rng h]
    refine ⟨?_, ?_, by simp, hnd', hlen', ?_⟩
    · rw [mask_count_one _ _ hnd' hlt', hlen']
    · rw [mask_count_zero _ _ hnd' hlt', hlen']
    · intro i hi
      rw [mask_getElem _ _ i hi]
      by_cases hmem : i ∈ (npRandomChoice rng t.size k).1
      · simp [hmem]
      · simp [hmem]
  · intro h
    rw [mkQuestionCodingDataset_neg t k rng h]

/-! ### Concrete sample data for witnesses -/

/-- A concrete model of the numpy random source: drawing `k` indices
without replacement yields `[0, 1, ..., k-1]`. -/
def sampleRng : RandomSource :=
  { state := 0, draw := fun s _ k => (List.range k, s + 1) }

/-- `sampleRng` satisfies numpy's contract for sampling without
replacement. -/
lemma sampleRng_choiceSpec : ChoiceSpec sampleRng := by
  intro s n k hk
  refine ⟨List.length_range k, List.nodup_range k, ?_⟩
  intro x hx
  exact lt_of_lt_of_le (List.mem_range.mp hx) hk

/-- A concrete token reader on the train split with three records. -/
def sampleTokens : ClevrTokensReader :=
  { records :=
      [{ question := [2, 3], program := [4], image_index := 0, answer := 7 },
       { question := [5], program := [6, 8], image_index := 1, answer := 9 },
       { question := [1], program := [2], image_index := 0, answer := 3 }],
    split := "train" }

/-- A concrete token reader on the val split with two records. -/
def sampleValTokens : ClevrTokensReader :=
  { records :=
      [{ question := [2], program := [4], image_index := 1, answer := 7 },
       { question := [5], program := [6], image_index := 0, answer := 9 }],
    split := "val" }

/-- A concrete feature reader with two feature records. -/
def sampleFeatures : ClevrFeaturesReader :=
  { records := [{ features := [10, 11] }, { features := [12] }],
    in_memory := true }

/-- **C1 witness.** The hypotheses of `supervision_mask_construction` hold
at `sampleTokens`, `k = 2`, `sampleRng`, and the mask there has two ones
and one zero. -/
theorem supervision_mask_construction_check :
    ChoiceSpec sampleRng ∧ (sampleTokens.split = "train" ∧ 2 < sampleTokens.size) ∧
    (mkQuestionCodingDataset sampleTokens 2 sampleRng).1.supervision_list.count 1 = 2 ∧
    (mkQuestionCodingDataset sampleTokens 2 sampleRng).1.supervision_list.count 0 =
      sampleTokens.size - 2 :=
  ⟨sampleRng_choiceSpec, ⟨rfl, by decide⟩,
   ((supervision_mask_construction sampleTokens 2 sampleRng
      sampleRng_choiceSpec).1 ⟨rfl, by decide⟩).1,
   ((supervision_mask_construction sampleTokens 2 sampleRng
      sampleRng_choiceSpec).1 ⟨rfl, by decide⟩).2.1⟩

/-- Construction stores the given token reader unchanged. -/
lemma mkQuestionCodingDataset_tokens (t : ClevrTokensReader) (k : Nat)
    (rng : RandomSource) :
    (mkQuestionCodingDataset t k rng).1.tokens = t := by
  by_cases h : t.split = "train" ∧ k < t.size
  · rw [mkQuestionCodingDataset_pos t k rng h]
  · rw [mkQuestionCodingDataset_neg t k rng h]

/-- `ProgramPriorDataset.__getitem__` never writes to `self`. -/
lemma programPrior_get_step_eq (d : ProgramPriorDataset) (i : Nat) :
    d.get_step i = (d.get i, d) := by
  simp only [ProgramPriorDataset.get_step, ProgramPriorDataset.get]
  cases d.reader.read i <;> rfl

/-- `QuestionCodingDataset.__getitem__` never writes to `self`. -/
lemma questionCoding_get_step_eq (d : QuestionCodingDataset) (i : Nat) :
    d.get_step i = (d.get i, d) := by
  simp only [QuestionCodingDataset.get_step, QuestionCodingDataset.get]
  cases d.tokens.read i
  · rfl
  · cases d.read_supervision i <;> rfl

/-- `ModuleTrainingDataset.__getitem__` never writes to `self`. -/
lemma moduleTraining_get_step_eq (d : ModuleTrainingDataset) (i : Nat) :
    d.get_step i = (d.get i, d) := by
  simp only [ModuleTrainingDataset.get_step, ModuleTrainingDataset.get]
  cases d.tokens.read i with
  | error e => rfl
  | ok item =>
    dsimp only
    cases d.features.read item.image_index <;> rfl

/-- No single method call changes a `QuestionCodingDataset`. -/
lemma QuestionCodingDataset.run_op_state (d : QuestionCodingDataset)
    (op : QCOp) : d.run_op op = d := by
  cases op with
  | opGet i =>
    simp only [QuestionCodingDataset.run_op, questionCoding_get_step_eq]
  | opSize => rfl
  | opSplit => rfl
  | opGetSupervisionList => rfl

/-- No sequence of method calls changes a `QuestionCodingDataset`. -/
lemma QuestionCodingDataset.run_ops_state (d : QuestionCodingDataset)
    (ops : List QCOp) : d.run_ops ops = d := by
  induction ops generalizing d with
  | nil => rfl
  | cons op ops ih =>
    rw [QuestionCodingDataset.run_ops, QuestionCodingDataset.run_op_state]
    exact ih d

/-- **C2.** For every `QuestionCodingDataset` and valid index `i`,
`get(i)` returns exactly the keys `program`, `question` and `supervision`,
where `program`/`question` are the reader's record fields at `i` and
`supervision` is entry `i` of `get_supervision_list()`; the supervision
list has length equal to the dataset size and every value is 0 or 1. -/
theorem questionCoding_get_contract (t : ClevrTokensReader) (k : Nat)
    (rng : RandomSource) (i : Nat)
    (hi : i < (mkQuestionCodingDataset t k rng).1.size) :
    (∃ item s, t.read i = Except.ok item ∧
      ((mkQuestionCodingDataset t k rng).1.get_supervision_list)[i]? = some s ∧
      (mkQuestionCodingDataset t k rng).1.get i =
        Except.ok { program := item.program, question := item.question,
                    supervision := s }) ∧
    (mkQuestionCodingDataset t k rng).1.get_supervision_list.length =
      (mkQuestionCodingDataset t k rng).1.size ∧
    (∀ v ∈ (mkQuestionCodingDataset t k rng).1.get_supervision_list,
      v = 0 ∨ v = 1) := by
  have htok := mkQuestionCodingDataset_tokens t k rng
  have hsize : (mkQuestionCodingDataset t k rng).1.size = t.size := by
    rw [QuestionCodingDataset.size, htok]
  have hlen := supervision_list_length t k rng
  have hi1 : i < t.records.length := by
    rw [hsize] at hi
    exact hi
  have hi2 : i < (mkQuestionCodingDataset t k rng).1.supervision_list.length := by
    rw [hlen, ← hsize]
    exact hi
  obtain ⟨item, hitem⟩ : ∃ item, t.records[i]? = some item :=
    ⟨_, List.getElem?_eq_getElem hi1⟩
  obtain ⟨s, hs⟩ : ∃ s,
      (mkQuestionCodingDataset t k rng).1.supervision_list[i]? = some s :=
    ⟨_, List.getElem?_eq_getElem hi2⟩
  have hread : t.read i = Except.ok item := by
    rw [ClevrTokensReader.read, hitem]
  have hsup : (mkQuestionCodingDataset t k rng).1.read_supervision i =
      Except.ok s := by
    rw [QuestionCodingDataset.read_supervision, hs]
  refine ⟨⟨item, s, hread, hs, ?_⟩,
    by rw [QuestionCodingDataset.get_supervision_list, hlen, hsize],
    fun v hv => supervision_list_mem t k rng v hv⟩
  rw [QuestionCodingDataset.get, htok, hread, hsup]

/-- **C2 witness.** `questionCoding_get_contract` applied at `sampleTokens`,
`k = 2`, `sampleRng`, index 1. -/
theorem questionCoding_get_contract_check :
    1 < (mkQuestionCodingDataset sampleTokens 2 sampleRng).1.size ∧
    (mkQuestionCodingDataset sampleTokens 2 sampleRng).1.get_supervision_list.length =
      (mkQuestionCodingDataset sampleTokens 2 sampleRng).1.size :=
  ⟨by decide,
   (questionCoding_get_contract sampleTokens 2 sampleRng 1 (by decide)).2.1⟩

/-- **C3.** For all three datasets, `split` is the underlying reader's
split tag, also after the `overfit` truncation; no dataset operation
changes it (the state after any `__getitem__` call still carries the same
tag). -/
theorem split_passthrough (t : ClevrTokensReader) (f : ClevrFeaturesReader)
    (k : Nat) (rng : RandomSource) (ov : Bool) (i : Nat) :
    (mkProgramPriorDataset t).split = t.split ∧
    (mkQuestionCodingDataset t k rng).1.split = t.split ∧
    (mkModuleTrainingDataset t f ov).split = t.split ∧
    (mkModuleTrainingDataset t f true).split = t.split ∧
    ((mkProgramPriorDataset t).get_step i).2.split = t.split ∧
    ((mkQuestionCodingDataset t k rng).1.get_step i).2.split = t.split ∧
    ((mkModuleTrainingDataset t f ov).get_step i).2.split = t.split := by
  have hqc : (mkQuestionCodingDataset t k rng).1.split = t.split := by
    rw [QuestionCodingDataset.split, mkQuestionCodingDataset_tokens]
  have hmt : ∀ b : Bool, (mkModuleTrainingDataset t f b).split = t.split := by
    intro b
    cases b <;> rfl
  refine ⟨rfl, hqc, hmt ov, hmt true, ?_, ?_, ?_⟩
  · rw [programPrior_get_step_eq]
    rfl
  · rw [questionCoding_get_step_eq]
    exact hqc
  · rw [moduleTraining_get_step_eq]
    exact hmt ov

/-- **C7.** `ProgramPriorDataset`: `size()` is the reader's example count
and `get(i)` returns a mapping with exactly the single key `program`,
equal to `reader[i]["program"]`. -/
theorem programPrior_contract (t : ClevrTokensReader) (i : Nat)
    (item : TokenRecord) (hitem : t.read i = Except.ok item) :
    (mkProgramPriorDataset t).size = t.size ∧
    (mkProgramPriorDataset t).get i = Except.ok { program := item.program } := by
  refine ⟨rfl, ?_⟩
  have hreader : (mkProgramPriorDataset t).reader = t := rfl
  rw [ProgramPriorDataset.get, hreader, hitem]

/-- **C7 witness.** `programPrior_contract` applied at `sampleTokens`,
index 0. -/
theorem programPrior_contract_check :
    sampleTokens.read 0 = Except.ok
      { question := [2, 3], program := [4], image_index := 0, answer := 7 } ∧
    (mkProgramPriorDataset sampleTokens).get 0 =
      Except.ok { program := [4] } :=
  ⟨rfl,
   (programPrior_contract sampleTokens 0
      { question := [2, 3], program := [4], image_index := 0, answer := 7 }
      rfl).2⟩

/-- **C9.** `QuestionReconstructor` binds source namespace `"programs"`
and target namespace `"questions"` on the sequence-to-sequence base,
forwards every hyperparameter unchanged (`max_decoding_steps` defaulting
to 45), and is nothing beyond this call to the base constructor. -/
theorem questionReconstructor_config (v : Vocabulary) (e h : Nat) (dr : ℚ)
    (m : Nat) :
    (mkQuestionReconstructor v e h dr m).source_namespace = "programs" ∧
    (mkQuestionReconstructor v e h dr m).target_namespace = "questions" ∧
    (mkQuestionReconstructor v e h dr m).embedding_size = e ∧
    (mkQuestionReconstructor v e h dr m).hidden_size = h ∧
    (mkQuestionReconstructor v e h dr m).dropout = dr ∧
    (mkQuestionReconstructor v e h dr m).max_decoding_steps = m ∧
    (mkQuestionReconstructor v e h dr m).vocabulary = v ∧
    mkQuestionReconstructor v e h dr m =
      mkSeq2SeqBase v "programs" "questions" e h dr m ∧
    (mkQuestionReconstructorDefaults v).max_decoding_steps = 45 ∧
    (mkQuestionReconstructorDefaults v).embedding_size = 128 ∧
    (mkQuestionReconstructorDefaults v).hidden_size = 64 ∧
    (mkQuestionReconstructorDefaults v).dropout = 0 :=
  ⟨rfl, rfl, rfl, rfl, rfl, rfl, rfl, rfl, rfl, rfl, rfl, rfl⟩

/-- **C10.** Constructing a `QuestionCodingDataset` on a non-train split,
or with `num_supervision ≥ size`, performs no random draw: the random
state is returned unchanged, and for any two random states the resulting
masks are the identical all-ones vector. -/
theorem questionCoding_no_draw (t : ClevrTokensReader) (k : Nat)
    (rngA rngB : RandomSource)
    (h : t.split ≠ "train" ∨ t.size ≤ k) :
    (mkQuestionCodingDataset t k rngA).2 = rngA ∧
    (mkQuestionCodingDataset t k rngA).1.supervision_list =
      List.replicate t.size 1 ∧
    (mkQuestionCodingDataset t k rngA).1.supervision_list =
      (mkQuestionCodingDataset t k rngB).1.supervision_list := by
  have h' : ¬(t.split = "train" ∧ k < t.size) := by
    intro hc
    rcases h with h | h
    · exact h hc.1
    · omega
  rw [mkQuestionCodingDataset_neg t k rngA h',
    mkQuestionCodingDataset_neg t k rngB h']
  exact ⟨rfl, rfl, rfl⟩

/-- A second concrete random source, with a different state and a
different drawing behaviour than `sampleRng`. -/
def sampleRngB : RandomSource :=
  { state := 17, draw := fun s _ k => ((List.range k).map (2 * ·), s + 3) }

/-- **C10 witness.** `questionCoding_no_draw` applied on the val split
(`sampleValTokens`) with `k = 0` and the two distinct random sources
`sampleRng`, `sampleRngB`. -/
theorem questionCoding_no_draw_check :
    (sampleValTokens.split ≠ "train" ∨ sampleValTokens.size ≤ 0) ∧
    (mkQuestionCodingDataset sampleValTokens 0 sampleRng).2 = sampleRng ∧
    (mkQuestionCodingDataset sampleValTokens 0 sampleRng).1.supervision_list =
      (mkQuestionCodingDataset sampleValTokens 0 sampleRngB).1.supervision_list :=
  ⟨Or.inl (by decide),
   (questionCoding_no_draw sampleValTokens 0 sampleRng sampleRngB
      (Or.inl (by decide))).1,
   (questionCoding_no_draw sampleValTokens 0 sampleRng sampleRngB
      (Or.inl (by decide))).2.2⟩

/-- The `overfit=True` construction slices the token reader to its first-5
prefix; `overfit=False` keeps it whole. -/
lemma mkModuleTrainingDataset_tokens_true (t : ClevrTokensReader)
    (f : ClevrFeaturesReader) :
    (mkModuleTrainingDataset t f true).tokens = t.takeFirst 5 := rfl

lemma mkModuleTrainingDataset_tokens_false (t : ClevrTokensReader)
    (f : ClevrFeaturesReader) :
    (mkModuleTrainingDataset t f false).tokens = t := rfl

/-- `ModuleTrainingDataset.__getitem__` only depends on the token record at
`i` and the feature reader. -/
lemma ModuleTrainingDataset.get_congr (d₁ d₂ : ModuleTrainingDataset)
    (i : Nat) (ht : d₁.tokens.read i = d₂.tokens.read i)
    (hf : d₁.features = d₂.features) :
    d₁.get i = d₂.get i := by
  rw [ModuleTrainingDataset.get, ModuleTrainingDataset.get, ht, hf]

/-- Reading inside the sliced prefix agrees with reading the original
reader. -/
lemma takeFirst_read (t : ClevrTokensReader) (n i : Nat) (hi : i < n) :
    (t.takeFirst n).read i = t.read i := by
  rw [ClevrTokensReader.read, ClevrTokensReader.read, ClevrTokensReader.takeFirst]
  rw [List.getElem?_take_of_lt hi]

/-- **C4.** `ModuleTrainingDataset` with `overfit=True` over a reader with
`n` records has `size() = min(5, n)` and, for `i < 5` in range, `get(i)`
agrees with the untruncated dataset (the i-th of the first 5 original
records with its resolved features); with `overfit=False`, `size() = n`. -/
theorem moduleTraining_overfit_truncation (t : ClevrTokensReader)
    (f : ClevrFeaturesReader) :
    (mkModuleTrainingDataset t f true).size = min 5 t.size ∧
    (mkModuleTrainingDataset t f false).size = t.size ∧
    ∀ i, i < 5 →
      (mkModuleTrainingDataset t f true).get i =
        (mkModuleTrainingDataset t f false).get i := by
  refine ⟨?_, rfl, ?_⟩
  · rw [ModuleTrainingDataset.size, mkModuleTrainingDataset_tokens_true,
      ClevrTokensReader.takeFirst, ClevrTokensReader.size, ClevrTokensReader.size]
    exact List.length_take 5 t.records
  · intro i hi
    apply ModuleTrainingDataset.get_congr
    · rw [mkModuleTrainingDataset_tokens_true, mkModuleTrainingDataset_tokens_false]
      exact takeFirst_read t 5 i hi
    · rfl

/-- **C4 witness.** `moduleTraining_overfit_truncation` applied at
`sampleTokens`, `sampleFeatures`, index 0. -/
theorem moduleTraining_overfit_truncation_check :
    (mkModuleTrainingDataset sampleTokens sampleFeatures true).size =
      min 5 sampleTokens.size ∧
    (0 : Nat) < 5 ∧
    (mkModuleTrainingDataset sampleTokens sampleFeatures true).get 0 =
      (mkModuleTrainingDataset sampleTokens sampleFeatures false).get 0 :=
  ⟨(moduleTraining_overfit_truncation sampleTokens sampleFeatures).1,
   by decide,
   (moduleTraining_overfit_truncation sampleTokens sampleFeatures).2.2 0
     (by decide)⟩

/-- **C5.** For every `ModuleTrainingDataset` and valid index `i`, `get(i)`
returns exactly the keys `question`, `answer` and `image`, with `question`
and `answer` from the token record at `i` and `image` equal to the
`features` field of the feature reader's record at that token record's
`image_index`. -/
theorem moduleTraining_get_contract (t : ClevrTokensReader)
    (f : ClevrFeaturesReader) (ov : Bool) (i : Nat) (item : TokenRecord)
    (feat : FeatureRecord)
    (hitem : (mkModuleTrainingDataset t f ov).tokens.read i = Except.ok item)
    (hfeat : f.read item.image_index = Except.ok feat) :
    (mkModuleTrainingDataset t f ov).get i =
      Except.ok { question := item.question, answer := item.answer,
                  image := feat.features } := by
  have hf : (mkModuleTrainingDataset t f ov).features = f := by
    cases ov <;> rfl
  rw [ModuleTrainingDataset.get, hf, hitem]
  dsimp only
  rw [hfeat]

/-- **C5 witness.** `moduleTraining_get_contract` applied at
`sampleTokens`/`sampleFeatures`, index 1, whose record has
`image_index = 1`. -/
theorem moduleTraining_get_contract_check :
    (mkModuleTrainingDataset sampleTokens sampleFeatures false).tokens.read 1 =
      Except.ok { question := [5], program := [6, 8], image_index := 1,
                  answer := 9 } ∧
    sampleFeatures.read 1 = Except.ok { features := [12] } ∧
    (mkModuleTrainingDataset sampleTokens sampleFeatures false).get 1 =
      Except.ok { question := [5], answer := 9, image := [12] } :=
  ⟨rfl, rfl,
   moduleTraining_get_contract sampleTokens sampleFeatures false 1
     { question := [5], program := [6, 8], image_index := 1, answer := 9 }
     { features := [12] } rfl rfl⟩

/-- **C6.** Out-of-bounds `get` fails with the reader's `IndexError`,
propagated unmodified, on every dataset; a token record whose
`image_index` has no feature record makes `ModuleTrainingDataset.get` fail
with the feature reader's lookup error, propagated uncaught; and the
dataset state is unchanged by the failed call. -/
theorem dataset_error_propagation (t : ClevrTokensReader)
    (f : ClevrFeaturesReader) (k : Nat) (rng : RandomSource) (i : Nat) :
    (t.size ≤ i →
      t.read i = Except.error (DataError.indexError i) ∧
      (mkProgramPriorDataset t).get i =
        Except.error (DataError.indexError i) ∧
      (mkQuestionCodingDataset t k rng).1.get i =
        Except.error (DataError.indexError i) ∧
      (mkModuleTrainingDataset t f false).get i =
        Except.error (DataError.indexError i)) ∧
    (∀ item : TokenRecord,
      (mkModuleTrainingDataset t f false).tokens.read i = Except.ok item →
      ∀ e : DataError, f.read item.image_index = Except.error e →
        (mkModuleTrainingDataset t f false).get i = Except.error e) ∧
    ((mkProgramPriorDataset t).get_step i).2 = mkProgramPriorDataset t ∧
    ((mkQuestionCodingDataset t k rng).1.get_step i).2 =
      (mkQuestionCodingDataset t k rng).1 ∧
    ((mkModuleTrainingDataset t f false).get_step i).2 =
      mkModuleTrainingDataset t f false := by
  refine ⟨?_, ?_, ?_, ?_, ?_⟩
  · intro hle
    have hnone : t.records[i]? = none := List.getElem?_eq_none hle
    have hread : t.read i = Except.error (DataError.indexError i) := by
      rw [ClevrTokensReader.read, hnone]
    refine ⟨hread, ?_, ?_, ?_⟩
    · rw [ProgramPriorDataset.get,
        show (mkProgramPriorDataset t).reader = t from rfl, hread]
    · rw [QuestionCodingDataset.get, mkQuestionCodingDataset_tokens, hread]
    · rw [ModuleTrainingDataset.get, mkModuleTrainingDataset_tokens_false,
        hread]
  · intro item hitem e he
    have hf : (mkModuleTrainingDataset t f false).features = f := rfl
    rw [ModuleTrainingDataset.get, hf, hitem]
    dsimp only
    rw [he]
  · rw [programPrior_get_step_eq]
  · rw [questionCoding_get_step_eq]
  · rw [moduleTraining_get_step_eq]

/-- A feature reader with a single record, so that `image_index = 1` has
no corresponding feature record. -/
def sampleFeaturesSmall : ClevrFeaturesReader :=
  { records := [{ features := [10] }], in_memory := false }

/-- **C6 witness.** `dataset_error_propagation` applied at `sampleTokens`
with out-of-bounds index 3, and at record 1 (whose `image_index = 1`) over
the one-record feature reader. -/
theorem dataset_error_propagation_check :
    sampleTokens.size ≤ 3 ∧
    (mkProgramPriorDataset sampleTokens).get 3 =
      Except.error (DataError.indexError 3) ∧
    (mkModuleTrainingDataset sampleTokens sampleFeaturesSmall false).get 1 =
      Except.error (DataError.lookupError 1) :=
  ⟨by decide,
   ((dataset_error_propagation sampleTokens sampleFeatures 2 sampleRng 3).1
      (by decide)).2.1,
   (dataset_error_propagation sampleTokens sampleFeaturesSmall 2 sampleRng 1).2.1
     { question := [5], program := [6, 8], image_index := 1, answer := 9 }
     rfl (DataError.lookupError 1) rfl⟩

/-- **C8.** `get` is stateless and side-effect-free on every dataset: the
state-passing form of `__getitem__` returns the result of the pure `get`
together with the unchanged dataset, no sequence of
`get`/`size`/`split`/`get_supervision_list` calls changes a
`QuestionCodingDataset`, the supervision mask reported by
`get_supervision_list` is the same throughout the dataset's lifetime, and
repeated `get(i)` calls return equal results. -/
theorem dataset_get_stateless (pd : ProgramPriorDataset)
    (qd : QuestionCodingDataset) (md : ModuleTrainingDataset) (i : Nat)
    (ops : List QCOp) :
    pd.get_step i = (pd.get i, pd) ∧
    qd.get_step i = (qd.get i, qd) ∧
    md.get_step i = (md.get i, md) ∧
    qd.run_ops ops = qd ∧
    (qd.run_ops ops).get_supervision_list = qd.get_supervision_list ∧
    (qd.run_ops ops).get i = qd.get i := by
  refine ⟨programPrior_get_step_eq pd i,
    questionCoding_get_step_eq qd i,
    moduleTraining_get_step_eq md i,
    QuestionCodingDataset.run_ops_state qd ops, ?_, ?_⟩
  · rw [QuestionCodingDataset.run_ops_state]
  · rw [QuestionCodingDataset.run_ops_state]

end Tbd
